import Mathlib

/-!
Shallow embedding of the `Select` prompt of the inquire crate
(src/prompts/select.rs): the selection state machine that tracks the
filtered option indices and the cursor, consumes key events, and resolves
a final answer.

External collaborators (terminal I/O, rendering, pagination) are outside
the state machine; key decoding is represented by the closed `Key` type.
The Text Input Buffer (`crate::input::Input`) is not under src/; following
the spec it is represented by its current content string, and its
`handle_key` operation is an abstract parameter returning the dirty flag
and the new content.
-/

/-- Modelled from the spec: key modifiers as decoded by the terminal layer
(`crossterm::KeyModifiers`); the state machine only distinguishes `NONE`. -/
inductive KeyModifiers where
  | NONE
  | SHIFT
  | CONTROL
  | ALT
  deriving DecidableEq, Repr

/-- Modelled from the spec: the closed set of decoded key events consumed by
the prompt loop (`crate::ui::Key`): Up, Down, Char, Submit, Cancel. -/
inductive Key where
  | Up (m : KeyModifiers)
  | Down (m : KeyModifiers)
  | Char (c : Char) (m : KeyModifiers)
  | Submit
  | Cancel
  deriving DecidableEq, Repr

/-- Modelled from the spec: an Answer (`crate::option_answer::OptionAnswer`,
not under src/) is the immutable pair (original catalog index, label text). -/
structure OptionAnswer where
  index : Nat
  value : String
  deriving DecidableEq, Repr

/-- `OptionAnswer::new(index, value)`. -/
def OptionAnswer.new (index : Nat) (value : String) : OptionAnswer :=
  { index := index, value := value }

/-- The two error kinds of the crate that the select prompt can produce
(`InquireError::InvalidConfiguration`, `InquireError::OperationCanceled`). -/
inductive InquireError where
  | InvalidConfiguration (msg : String)
  | OperationCanceled
  deriving DecidableEq, Repr

/-- The abstract behaviour of `Input::handle_key`: given a key and the current
buffer content, return the dirty flag and the new content. -/
def HandleKey : Type := Key → String → Bool × String

/-- The `Select` configuration struct (select.rs, lines 53-79). The filter
and formatter are the injected function values of the configuration. -/
structure Select where
  message : String
  options : List String
  help_message : Option String
  page_size : Nat
  vim_mode : Bool
  starting_cursor : Nat
  filter : String → String → Nat → Bool
  formatter : OptionAnswer → String

/-- `Select::with_formatter` (select.rs, lines 146-149). -/
def Select.with_formatter (s : Select) (formatter : OptionAnswer → String) : Select :=
  { s with formatter := formatter }

/-- The `SelectPrompt` state struct (select.rs, lines 173-184). The `Input`
field is represented by its content string (`inputContent`). -/
structure SelectPrompt where
  message : String
  options : List String
  help_message : Option String
  vim_mode : Bool
  cursor_index : Nat
  page_size : Nat
  inputContent : String
  filtered_options : List Nat
  filter : String → String → Nat → Bool
  formatter : OptionAnswer → String

/-- `usize::checked_sub` on the Nat model. -/
def checked_sub (a b : Nat) : Option Nat :=
  if b ≤ a then some (a - b) else none

/-- `SelectPrompt::new` (select.rs, lines 187-214): fails with
`InvalidConfiguration` on an empty catalog or an out-of-range starting
cursor; otherwise the filtered list starts as the full range `0..n`, the
cursor at the starting cursor, and the input buffer empty (`Input::new`). -/
def SelectPrompt.new (so : Select) : Except InquireError SelectPrompt :=
  if so.options.isEmpty then
    Except.error (InquireError.InvalidConfiguration "Available options can not be empty")
  else if so.options.length ≤ so.starting_cursor then
    Except.error (InquireError.InvalidConfiguration
      ("Starting cursor index " ++ toString so.starting_cursor ++
        " is out-of-bounds for length " ++ toString so.options.length ++ " of options"))
  else
    Except.ok
      { message := so.message
        options := so.options
        help_message := so.help_message
        vim_mode := so.vim_mode
        cursor_index := so.starting_cursor
        page_size := so.page_size
        inputContent := ""
        filtered_options := List.range so.options.length
        filter := so.filter
        formatter := so.formatter }

/-- The `options.iter().enumerate().filter_map(..)` pipeline of
`filter_options` (select.rs, lines 216-226), written as structural recursion
over the catalog carrying the enumeration index: index `i` is kept when the
filter text is empty or the filter accepts `(text, label, i)`. -/
def filterOptionsFrom (f : String → String → Nat → Bool) (content : String) :
    Nat → List String → List Nat
  | _, [] => []
  | i, opt :: rest =>
    if content.isEmpty then i :: filterOptionsFrom f content (i + 1) rest
    else if f content opt i then i :: filterOptionsFrom f content (i + 1) rest
    else filterOptionsFrom f content (i + 1) rest

/-- `SelectPrompt::filter_options` (select.rs, lines 216-226). -/
def SelectPrompt.filter_options (s : SelectPrompt) : List Nat :=
  filterOptionsFrom s.filter s.inputContent 0 s.options

/-- `SelectPrompt::move_cursor_up` (select.rs, lines 228-234):
`cursor.checked_sub(1).or(len.checked_sub(1)).unwrap_or(0)`. -/
def SelectPrompt.move_cursor_up (s : SelectPrompt) : SelectPrompt :=
  { s with cursor_index :=
      ((checked_sub s.cursor_index 1).or (checked_sub s.filtered_options.length 1)).getD 0 }

/-- `SelectPrompt::move_cursor_down` (select.rs, lines 236-241): saturating
increment (plain `+ 1` on Nat), then reset to 0 when the result reaches or
exceeds the filtered length. -/
def SelectPrompt.move_cursor_down (s : SelectPrompt) : SelectPrompt :=
  let c := s.cursor_index + 1
  { s with cursor_index := if s.filtered_options.length ≤ c then 0 else c }

/-- The tail of the dirty branch of `on_change` (select.rs, lines 253-257):
clamp the cursor when the recomputed list is non-empty and too short, then
install the recomputed list. -/
def SelectPrompt.update_filtered (s : SelectPrompt) (options : List Nat) : SelectPrompt :=
  let s1 :=
    if 0 < options.length ∧ options.length ≤ s.cursor_index then
      { s with cursor_index := options.length - 1 }
    else s
  { s1 with filtered_options := options }

/-- The catch-all arm of `on_change` (select.rs, lines 249-259): forward the
key to the input buffer; when the buffer reports a change, recompute the
filtered list and clamp the cursor. -/
def SelectPrompt.handle_input (hk : HandleKey) (s : SelectPrompt) (key : Key) : SelectPrompt :=
  let r := hk key s.inputContent
  let s1 := { s with inputContent := r.2 }
  if r.1 then s1.update_filtered s1.filter_options else s1

/-- `SelectPrompt::on_change` (select.rs, lines 243-261): the key dispatch for
non-terminal keys, with the vim-mode guards on `k` and `j`. -/
def SelectPrompt.on_change (hk : HandleKey) (s : SelectPrompt) (key : Key) : SelectPrompt :=
  match key with
  | Key.Up KeyModifiers.NONE => s.move_cursor_up
  | Key.Char 'k' KeyModifiers.NONE =>
    if s.vim_mode then s.move_cursor_up
    else s.handle_input hk (Key.Char 'k' KeyModifiers.NONE)
  | Key.Down KeyModifiers.NONE => s.move_cursor_down
  | Key.Char 'j' KeyModifiers.NONE =>
    if s.vim_mode then s.move_cursor_down
    else s.handle_input hk (Key.Char 'j' KeyModifiers.NONE)
  | key => s.handle_input hk key

/-- `SelectPrompt::get_final_answer` (select.rs, lines 263-267). -/
def SelectPrompt.get_final_answer (s : SelectPrompt) : Option OptionAnswer :=
  (s.filtered_options.get? s.cursor_index).bind (fun i =>
    (s.options.get? i).map (fun opt => OptionAnswer.new i opt))

/-- The catalog lookups of `render` (select.rs, lines 276-281): map every
filtered index to its (index, label) pair; `none` models the `unwrap` panic
on an out-of-range index. -/
def SelectPrompt.render_choices (s : SelectPrompt) : Option (List OptionAnswer) :=
  s.filtered_options.mapM (fun i =>
    (s.options.get? i).map (fun opt => OptionAnswer.new i opt))

/-- Outcome of running the interaction loop on a finite key sequence:
cancelled, submitted (with the answer and the formatted display text passed
to `renderer.cleanup`), or still editing when the keys run out. -/
inductive Outcome where
  | canceled
  | submitted (answer : OptionAnswer) (display : String)
  | editing (s : SelectPrompt)

/-- The interaction loop of `SelectPrompt::prompt` (select.rs, lines 298-324)
on a finite list of decoded key events: Cancel exits immediately; Submit or
an unmodified space submits the resolved answer when there is one and is
otherwise ignored; every other key goes through `on_change`. -/
def run_prompt (hk : HandleKey) (s : SelectPrompt) : List Key → Outcome
  | [] => Outcome.editing s
  | key :: rest =>
    match key with
    | Key.Cancel => Outcome.canceled
    | Key.Submit =>
      match s.get_final_answer with
      | some answer => Outcome.submitted answer (s.formatter answer)
      | none => run_prompt hk s rest
    | Key.Char ' ' KeyModifiers.NONE =>
      match s.get_final_answer with
      | some answer => Outcome.submitted answer (s.formatter answer)
      | none => run_prompt hk s rest
    | key => run_prompt hk (s.on_change hk key) rest

/-- States of the machine reachable from a valid construction by any
sequence of `on_change` steps, under arbitrary behaviours of the input
buffer. Submit attempts do not change the state (`get_final_answer` is a
pure read), so they need no constructor. -/
inductive Reachable : SelectPrompt → Prop
  | init (so : Select) (s : SelectPrompt) :
      SelectPrompt.new so = Except.ok s → Reachable s
  | step (hk : HandleKey) (s : SelectPrompt) (key : Key) :
      Reachable s → Reachable (s.on_change hk key)

/-! ### Basic lemmas about the embedded operations -/

theorem filterOptionsFrom_sublist (f : String → String → Nat → Bool) (c : String) :
    ∀ (opts : List String) (i : Nat),
      List.Sublist (filterOptionsFrom f c i opts) (List.range' i opts.length)
  | [], i => by simp [filterOptionsFrom]
  | opt :: rest, i => by
    rw [List.length_cons, List.range'_succ]
    simp only [filterOptionsFrom]
    by_cases hc : c.isEmpty = true
    · simp only [hc, if_true]
      exact List.Sublist.cons₂ i (filterOptionsFrom_sublist f c rest (i + 1))
    · simp only [hc, if_false]
      by_cases hf : f c opt i = true
      · simp only [hf, if_true]
        exact List.Sublist.cons₂ i (filterOptionsFrom_sublist f c rest (i + 1))
      · simp only [hf, if_false]
        exact List.Sublist.cons i (filterOptionsFrom_sublist f c rest (i + 1))

theorem filterOptionsFrom_cons (f : String → String → Nat → Bool) (c : String)
    (i : Nat) (opt : String) (rest : List String) :
    filterOptionsFrom f c i (opt :: rest) =
      if c.isEmpty = true ∨ f c opt i = true then i :: filterOptionsFrom f c (i + 1) rest
      else filterOptionsFrom f c (i + 1) rest := by
  simp only [filterOptionsFrom]
  by_cases hc : c.isEmpty = true
  · rw [if_pos hc, if_pos (Or.inl hc)]
  · rw [if_neg hc]
    by_cases hf : f c opt i = true
    · rw [if_pos hf, if_pos (Or.inr hf)]
    · rw [if_neg hf, if_neg (by tauto)]

theorem mem_filterOptionsFrom (f : String → String → Nat → Bool) (c : String) :
    ∀ (opts : List String) (i j : Nat),
      j ∈ filterOptionsFrom f c i opts ↔
        ∃ k l, opts.get? k = some l ∧ j = i + k ∧ (c.isEmpty = true ∨ f c l j = true)
  | [], i, j => by simp [filterOptionsFrom]
  | opt :: rest, i, j => by
    rw [filterOptionsFrom_cons]
    have IH := mem_filterOptionsFrom f c rest (i + 1) j
    by_cases hp : c.isEmpty = true ∨ f c opt i = true
    · rw [if_pos hp, List.mem_cons]
      constructor
      · intro h
        rcases h with h | h
        · subst h
          refine ⟨0, opt, rfl, by omega, ?_⟩
          exact hp
        · rcases IH.mp h with ⟨k, l, hget, hj, hor⟩
          exact ⟨k + 1, l, hget, by omega, hor⟩
      · rintro ⟨k, l, hget, hj, hor⟩
        cases k with
        | zero =>
          left
          omega
        | succ k =>
          right
          exact IH.mpr ⟨k, l, hget, by omega, hor⟩
    · rw [if_neg hp]
      push_neg at hp
      constructor
      · intro h
        rcases IH.mp h with ⟨k, l, hget, hj, hor⟩
        exact ⟨k + 1, l, hget, by omega, hor⟩
      · rintro ⟨k, l, hget, hj, hor⟩
        cases k with
        | zero =>
          have hl : opt = l := by
            have : some opt = some l := hget
            injection this
          subst hl
          have hji : j = i := by omega
          subst hji
          rcases hor with hc | hf
          · exact absurd hc hp.1
          · exact absurd hf hp.2
        | succ k =>
          exact IH.mpr ⟨k, l, hget, by omega, hor⟩

theorem filterOptionsFrom_of_isEmpty (f : String → String → Nat → Bool) {c : String}
    (hc : c.isEmpty = true) :
    ∀ (opts : List String) (i : Nat),
      filterOptionsFrom f c i opts = List.range' i opts.length
  | [], i => by simp [filterOptionsFrom]
  | opt :: rest, i => by
    simp only [filterOptionsFrom, hc, if_true, List.length_cons, List.range'_succ]
    rw [filterOptionsFrom_of_isEmpty f hc rest (i + 1)]

theorem move_cursor_up_cursor (s : SelectPrompt) :
    (s.move_cursor_up).cursor_index =
      if 0 < s.cursor_index then s.cursor_index - 1
      else if 0 < s.filtered_options.length then s.filtered_options.length - 1
      else 0 := by
  simp only [SelectPrompt.move_cursor_up, checked_sub]
  by_cases h1 : 1 ≤ s.cursor_index
  · simp [Option.or, h1, Nat.lt_of_lt_of_le Nat.zero_lt_one h1]
  · have hc : s.cursor_index = 0 := by omega
    by_cases h2 : 1 ≤ s.filtered_options.length
    · simp [Option.or, h1, h2, hc, Nat.lt_of_lt_of_le Nat.zero_lt_one h2]
    · have hl : s.filtered_options.length = 0 := by omega
      simp [Option.or, h1, h2, hc, hl]

theorem move_cursor_up_filtered (s : SelectPrompt) :
    (s.move_cursor_up).filtered_options = s.filtered_options := rfl

theorem move_cursor_down_cursor (s : SelectPrompt) :
    (s.move_cursor_down).cursor_index =
      if s.filtered_options.length ≤ s.cursor_index + 1 then 0 else s.cursor_index + 1 := rfl

theorem move_cursor_down_filtered (s : SelectPrompt) :
    (s.move_cursor_down).filtered_options = s.filtered_options := rfl

theorem update_filtered_options (s : SelectPrompt) (opts : List Nat) :
    (s.update_filtered opts).options = s.options := by
  simp only [SelectPrompt.update_filtered]
  split <;> rfl

theorem update_filtered_filtered (s : SelectPrompt) (opts : List Nat) :
    (s.update_filtered opts).filtered_options = opts := rfl

theorem update_filtered_cursor (s : SelectPrompt) (opts : List Nat) :
    (s.update_filtered opts).cursor_index =
      if 0 < opts.length ∧ opts.length ≤ s.cursor_index then opts.length - 1
      else s.cursor_index := by
  simp only [SelectPrompt.update_filtered]
  split <;> rfl

theorem handle_input_options (hk : HandleKey) (s : SelectPrompt) (key : Key) :
    (s.handle_input hk key).options = s.options := by
  simp only [SelectPrompt.handle_input]
  split
  · exact update_filtered_options _ _
  · rfl

theorem on_change_options (hk : HandleKey) (s : SelectPrompt) (key : Key) :
    (s.on_change hk key).options = s.options := by
  simp only [SelectPrompt.on_change]
  split
  · rfl
  · split
    · rfl
    · exact handle_input_options _ _ _
  · rfl
  · split
    · rfl
    · exact handle_input_options _ _ _
  · exact handle_input_options _ _ _

/-! ### Invariants of the state machine -/

/-- The cursor invariant of the spec: whenever the filtered index list is
non-empty, the cursor is a valid index into it. -/
def cursorInv (s : SelectPrompt) : Prop :=
  s.filtered_options ≠ [] → s.cursor_index < s.filtered_options.length

/-- The catalog-index invariant: every filtered index is a valid index into
the option catalog. -/
def idxInv (s : SelectPrompt) : Prop :=
  ∀ i ∈ s.filtered_options, i < s.options.length

theorem filter_options_lt (s : SelectPrompt) :
    ∀ i ∈ s.filter_options, i < s.options.length := by
  intro i hi
  have hs := filterOptionsFrom_sublist s.filter s.inputContent s.options 0
  have hmem : i ∈ List.range' 0 s.options.length := hs.mem hi
  rw [← List.range_eq_range', List.mem_range] at hmem
  exact hmem

theorem cursorInv_move_up (s : SelectPrompt) (h : cursorInv s) :
    cursorInv s.move_cursor_up := by
  intro hne
  rw [move_cursor_up_filtered] at hne ⊢
  rw [move_cursor_up_cursor]
  have hlen : 0 < s.filtered_options.length := List.length_pos.mpr hne
  have hcur := h hne
  split <;> omega

theorem cursorInv_move_down (s : SelectPrompt) (h : cursorInv s) :
    cursorInv s.move_cursor_down := by
  intro hne
  rw [move_cursor_down_filtered] at hne ⊢
  rw [move_cursor_down_cursor]
  have hlen : 0 < s.filtered_options.length := List.length_pos.mpr hne
  have hcur := h hne
  split
  · omega
  · omega

theorem cursorInv_update_filtered (s : SelectPrompt) (opts : List Nat) :
    cursorInv (s.update_filtered opts) := by
  intro hne
  rw [update_filtered_filtered] at hne ⊢
  rw [update_filtered_cursor]
  have hlen : 0 < opts.length := List.length_pos.mpr hne
  split
  · omega
  · rename_i hcond
    rw [not_and_or] at hcond
    omega

theorem cursorInv_handle_input (hk : HandleKey) (s : SelectPrompt) (key : Key)
    (h : cursorInv s) : cursorInv (s.handle_input hk key) := by
  simp only [SelectPrompt.handle_input]
  split
  · exact cursorInv_update_filtered _ _
  · intro hne
    exact h hne

theorem cursorInv_on_change (hk : HandleKey) (s : SelectPrompt) (key : Key)
    (h : cursorInv s) : cursorInv (s.on_change hk key) := by
  simp only [SelectPrompt.on_change]
  split
  · exact cursorInv_move_up s h
  · split
    · exact cursorInv_move_up s h
    · exact cursorInv_handle_input _ _ _ h
  · exact cursorInv_move_down s h
  · split
    · exact cursorInv_move_down s h
    · exact cursorInv_handle_input _ _ _ h
  · exact cursorInv_handle_input _ _ _ h

theorem new_ok_fields (so : Select) (s : SelectPrompt)
    (h : SelectPrompt.new so = Except.ok s) :
    s.message = so.message ∧ s.options = so.options ∧
    s.help_message = so.help_message ∧ s.vim_mode = so.vim_mode ∧
    s.cursor_index = so.starting_cursor ∧ s.page_size = so.page_size ∧
    s.inputContent = "" ∧ s.filtered_options = List.range so.options.length ∧
    s.filter = so.filter ∧ s.formatter = so.formatter ∧
    so.options.isEmpty = false ∧ so.starting_cursor < so.options.length := by
  simp only [SelectPrompt.new] at h
  split at h
  · simp at h
  · split at h
    · simp at h
    · rename_i h1 h2
      injection h with h
      subst h
      refine ⟨rfl, rfl, rfl, rfl, rfl, rfl, rfl, rfl, rfl, rfl, ?_, ?_⟩
      · simp only [Bool.not_eq_true] at h1
        exact h1
      · omega

theorem cursorInv_new (so : Select) (s : SelectPrompt)
    (h : SelectPrompt.new so = Except.ok s) : cursorInv s := by
  obtain ⟨-, -, -, -, hcur, -, -, hfil, -, -, -, hlt⟩ := new_ok_fields so s h
  intro hne
  rw [hcur, hfil, List.length_range]
  exact hlt

theorem idxInv_new (so : Select) (s : SelectPrompt)
    (h : SelectPrompt.new so = Except.ok s) : idxInv s := by
  obtain ⟨-, hopts, -, -, -, -, -, hfil, -, -, -, -⟩ := new_ok_fields so s h
  intro i hi
  rw [hfil, List.mem_range] at hi
  rw [hopts]
  exact hi

theorem idxInv_handle_input (hk : HandleKey) (s : SelectPrompt) (key : Key)
    (h : idxInv s) : idxInv (s.handle_input hk key) := by
  simp only [SelectPrompt.handle_input]
  split
  · intro i hi
    rw [update_filtered_options]
    rw [update_filtered_filtered] at hi
    exact filter_options_lt _ i hi
  · exact h

theorem idxInv_on_change (hk : HandleKey) (s : SelectPrompt) (key : Key)
    (h : idxInv s) : idxInv (s.on_change hk key) := by
  simp only [SelectPrompt.on_change]
  split
  · exact h
  · split
    · exact h
    · exact idxInv_handle_input _ _ _ h
  · exact h
  · split
    · exact h
    · exact idxInv_handle_input _ _ _ h
  · exact idxInv_handle_input _ _ _ h

theorem reachable_cursorInv {s : SelectPrompt} (h : Reachable s) : cursorInv s := by
  induction h with
  | init so s hnew => exact cursorInv_new so s hnew
  | step hk s key hr ih => exact cursorInv_on_change hk s key ih

theorem reachable_idxInv {s : SelectPrompt} (h : Reachable s) : idxInv s := by
  induction h with
  | init so s hnew => exact idxInv_new so s hnew
  | step hk s key hr ih => exact idxInv_on_change hk s key ih

/-! ### Selection resolution -/

theorem get_final_answer_some (s : SelectPrompt) (hidx : idxInv s)
    (h : s.cursor_index < s.filtered_options.length) :
    ∃ i l, s.filtered_options.get? s.cursor_index = some i ∧
      s.options.get? i = some l ∧
      s.get_final_answer = some (OptionAnswer.new i l) := by
  have hi : s.filtered_options.get? s.cursor_index =
      some (s.filtered_options.get ⟨s.cursor_index, h⟩) := List.get?_eq_get h
  have hmem : s.filtered_options.get ⟨s.cursor_index, h⟩ ∈ s.filtered_options :=
    List.get_mem _ _ _
  have hlt := hidx _ hmem
  have hl : s.options.get? (s.filtered_options.get ⟨s.cursor_index, h⟩) =
      some (s.options.get ⟨_, hlt⟩) := List.get?_eq_get hlt
  refine ⟨_, _, hi, hl, ?_⟩
  simp only [SelectPrompt.get_final_answer, hi, Option.some_bind, hl, Option.map_some']

theorem get_final_answer_eq_none_iff (s : SelectPrompt) (hidx : idxInv s) :
    s.get_final_answer = none ↔
      (s.filtered_options = [] ∨ s.filtered_options.length ≤ s.cursor_index) := by
  constructor
  · intro h
    by_contra hc
    push_neg at hc
    obtain ⟨hne, hlt⟩ := hc
    obtain ⟨i, l, -, -, hsome⟩ := get_final_answer_some s hidx hlt
    rw [hsome] at h
    cases h
  · intro h
    have hlen : s.filtered_options.length ≤ s.cursor_index := by
      rcases h with h | h
      · simp [h]
      · exact h
    simp only [SelectPrompt.get_final_answer]
    rw [List.get?_eq_none.mpr hlen]
    rfl

theorem mapM_lookup_some (opts : List String) :
    ∀ l : List Nat, (∀ i ∈ l, i < opts.length) →
      ∃ rows, l.mapM (fun i =>
        (opts.get? i).map (fun opt => OptionAnswer.new i opt)) = some rows
  | [], _ => ⟨[], rfl⟩
  | i :: rest, h => by
    obtain ⟨rows, hrows⟩ :=
      mapM_lookup_some opts rest (fun j hj => h j (List.mem_cons_of_mem _ hj))
    have hi : i < opts.length := h i (List.mem_cons_self _ _)
    have hopt : opts.get? i = some (opts.get ⟨i, hi⟩) := List.get?_eq_get hi
    refine ⟨OptionAnswer.new i (opts.get ⟨i, hi⟩) :: rows, ?_⟩
    rw [List.mapM_cons, hopt, Option.map_some', hrows]
    rfl

theorem render_choices_some (s : SelectPrompt) (hidx : idxInv s) :
    ∃ rows, s.render_choices = some rows :=
  mapM_lookup_some s.options s.filtered_options hidx

/-! ### Formatter noninterference -/

/-- Replace only the formatter of a prompt state, as `with_formatter` does on
the configuration. -/
def SelectPrompt.with_formatter (s : SelectPrompt) (f : OptionAnswer → String) :
    SelectPrompt :=
  { s with formatter := f }

theorem with_formatter_get_final_answer (s : SelectPrompt) (f : OptionAnswer → String) :
    (s.with_formatter f).get_final_answer = s.get_final_answer := rfl

theorem with_formatter_on_change (hk : HandleKey) (s : SelectPrompt)
    (f : OptionAnswer → String) (key : Key) :
    (s.with_formatter f).on_change hk key = (s.on_change hk key).with_formatter f := by
  cases s with
  | mk msg opts help vim ci ps inp fo fil fmt =>
    simp only [SelectPrompt.on_change, SelectPrompt.with_formatter,
      SelectPrompt.handle_input, SelectPrompt.update_filtered, SelectPrompt.filter_options,
      SelectPrompt.move_cursor_up, SelectPrompt.move_cursor_down]
    split <;> (try split) <;> (try split) <;> (try split) <;> rfl

/-- Relates the outcomes of two runs that differ only in the formatter `f`
installed in the second: same terminal state and same answer, with only the
displayed text free to differ. -/
inductive FormatterOutcomeRel (f : OptionAnswer → String) : Outcome → Outcome → Prop
  | canceled : FormatterOutcomeRel f Outcome.canceled Outcome.canceled
  | submitted (a : OptionAnswer) (d d' : String) :
      FormatterOutcomeRel f (Outcome.submitted a d) (Outcome.submitted a d')
  | editing (s : SelectPrompt) :
      FormatterOutcomeRel f (Outcome.editing s) (Outcome.editing (s.with_formatter f))

theorem run_prompt_with_formatter (hk : HandleKey) (f : OptionAnswer → String) :
    ∀ (ks : List Key) (s : SelectPrompt),
      FormatterOutcomeRel f (run_prompt hk s ks) (run_prompt hk (s.with_formatter f) ks)
  | [], s => FormatterOutcomeRel.editing s
  | key :: rest, s => by
    simp only [run_prompt]
    split
    · exact FormatterOutcomeRel.canceled
    · rw [with_formatter_get_final_answer]
      split
      · exact FormatterOutcomeRel.submitted _ _ _
      · exact run_prompt_with_formatter hk f rest s
    · rw [with_formatter_get_final_answer]
      split
      · exact FormatterOutcomeRel.submitted _ _ _
      · exact run_prompt_with_formatter hk f rest s
    · rw [with_formatter_on_change]
      exact run_prompt_with_formatter hk f rest _

/-! ### Concrete states used by the witnesses -/

/-- A concrete configuration: the fruit example of the crate documentation,
restricted to three options, with an exact-match filter. -/
def demoSelect : Select :=
  { message := "Favorite fruit"
    options := ["Banana", "Apple", "Strawberry"]
    help_message := none
    page_size := 7
    vim_mode := false
    starting_cursor := 0
    filter := fun text opt _ => opt == text
    formatter := fun a => a.value }

/-- The prompt state successfully constructed from `demoSelect`. -/
def demoPrompt : SelectPrompt :=
  { message := "Favorite fruit"
    options := ["Banana", "Apple", "Strawberry"]
    help_message := none
    vim_mode := false
    cursor_index := 0
    page_size := 7
    inputContent := ""
    filtered_options := List.range 3
    filter := fun text opt _ => opt == text
    formatter := fun a => a.value }

theorem demoPrompt_new : SelectPrompt.new demoSelect = Except.ok demoPrompt := rfl

/-- A state whose filtered index list is empty while the cursor still holds
its last value (the cursor-memory behaviour of the source). -/
def emptyFilteredPrompt : SelectPrompt :=
  { demoPrompt with filtered_options := [], cursor_index := 5 }

/-- Input-buffer behaviour that always reports a change to content `zzz`. -/
def hkDemo : HandleKey := fun _ _ => (true, "zzz")

/-- Input-buffer behaviour that always reports a change to content `Banana`. -/
def hkBanana : HandleKey := fun _ _ => (true, "Banana")

/-- `demoPrompt` with the cursor on the last option. -/
def demoPromptAtEnd : SelectPrompt := { demoPrompt with cursor_index := 2 }

/-! ### Claims -/

/-- C1: in every state reachable from a valid construction — under any
sequence of navigation keys, filter recomputations and submit attempts
(which do not change state) — whenever the filtered index list is non-empty
the cursor satisfies `0 ≤ cursor < length(filtered)`. -/
theorem c1_reachable_cursor_invariant (s : SelectPrompt) (hr : Reachable s)
    (hne : s.filtered_options ≠ []) :
    s.cursor_index < s.filtered_options.length :=
  reachable_cursorInv hr hne

theorem c1_reachable_cursor_invariant_witness :
    demoPrompt.filtered_options ≠ [] ∧
    demoPrompt.cursor_index < demoPrompt.filtered_options.length :=
  ⟨by decide,
   c1_reachable_cursor_invariant demoPrompt
     (Reachable.init demoSelect demoPrompt demoPrompt_new) (by decide)⟩

/-- C2 counterexample: with an empty filtered list and cursor 5, `move_down`
does not leave the cursor at its current value — it resets it to 0, because
`cursor + 1 ≥ 0` always holds. -/
theorem c2_counterexample :
    emptyFilteredPrompt.filtered_options.length = 0 ∧
    emptyFilteredPrompt.cursor_index = 5 ∧
    (emptyFilteredPrompt.move_cursor_down).cursor_index ≠
      emptyFilteredPrompt.cursor_index := by
  refine ⟨rfl, rfl, by decide⟩

/-- C2 (amended): `move_down` increments the cursor by 1 and wraps it to 0
when the result reaches or exceeds the filtered length `L`; in particular
when `L = 0` the cursor always becomes 0 (not its previous value). -/
theorem c2_move_down_amended (s : SelectPrompt) :
    (s.move_cursor_down).cursor_index =
      (if s.cursor_index + 1 ≥ s.filtered_options.length then 0
       else s.cursor_index + 1) ∧
    (s.filtered_options.length = 0 → (s.move_cursor_down).cursor_index = 0) := by
  constructor
  · exact move_cursor_down_cursor s
  · intro h
    rw [move_cursor_down_cursor, h]
    simp

theorem c2_move_down_amended_witness :
    emptyFilteredPrompt.filtered_options.length = 0 ∧
    (emptyFilteredPrompt.move_cursor_down).cursor_index = 0 :=
  ⟨rfl, (c2_move_down_amended emptyFilteredPrompt).2 rfl⟩

/-- C3: `move_up` is a circular decrement over `[0, L)`: it decrements a
positive cursor by 1, wraps cursor 0 to `L - 1` when `L > 0`, and leaves
cursor 0 at 0 when `L = 0`; the filtered list is untouched. -/
theorem c3_move_up_circular (s : SelectPrompt) :
    (s.move_cursor_up).cursor_index =
      (if 0 < s.cursor_index then s.cursor_index - 1
       else if 0 < s.filtered_options.length then s.filtered_options.length - 1
       else 0) ∧
    (s.move_cursor_up).filtered_options = s.filtered_options :=
  ⟨move_cursor_up_cursor s, rfl⟩

/-- C4: after a filter recomputation (a key that makes the input buffer
dirty), the recomputed list is installed; when it is non-empty and the prior
cursor reaches or exceeds its length, the cursor clamps to `length - 1`;
when it is empty, the cursor is left unchanged. -/
theorem c4_filter_clamp (hk : HandleKey) (s : SelectPrompt) (key : Key)
    (hdirty : (hk key s.inputContent).1 = true) :
    ((s.handle_input hk key).filtered_options =
      SelectPrompt.filter_options { s with inputContent := (hk key s.inputContent).2 }) ∧
    (SelectPrompt.filter_options { s with inputContent := (hk key s.inputContent).2 } ≠ [] →
      (SelectPrompt.filter_options
          { s with inputContent := (hk key s.inputContent).2 }).length ≤ s.cursor_index →
      (s.handle_input hk key).cursor_index =
        (SelectPrompt.filter_options
          { s with inputContent := (hk key s.inputContent).2 }).length - 1) ∧
    (SelectPrompt.filter_options { s with inputContent := (hk key s.inputContent).2 } = [] →
      (s.handle_input hk key).cursor_index = s.cursor_index) := by
  have hh : s.handle_input hk key =
      SelectPrompt.update_filtered { s with inputContent := (hk key s.inputContent).2 }
        (SelectPrompt.filter_options { s with inputContent := (hk key s.inputContent).2 }) := by
    simp only [SelectPrompt.handle_input]
    rw [if_pos hdirty]
  refine ⟨?_, ?_, ?_⟩
  · rw [hh, update_filtered_filtered]
  · intro hne hle
    rw [hh, update_filtered_cursor, if_pos ⟨List.length_pos.mpr hne, hle⟩]
  · intro hemp
    rw [hh, update_filtered_cursor, if_neg (by rw [hemp]; simp)]

theorem c4_filter_clamp_witness :
    (demoPrompt.handle_input hkDemo (Key.Char 'x' KeyModifiers.NONE)).cursor_index =
      demoPrompt.cursor_index ∧
    (demoPromptAtEnd.handle_input hkBanana (Key.Char 'x' KeyModifiers.NONE)).cursor_index = 0 :=
  ⟨(c4_filter_clamp hkDemo demoPrompt (Key.Char 'x' KeyModifiers.NONE) rfl).2.2 (by decide),
   (c4_filter_clamp hkBanana demoPromptAtEnd (Key.Char 'x' KeyModifiers.NONE) rfl).2.1
     (by decide) (by decide)⟩

/-- C5: filter recomputation keeps catalog index `i` iff the filter text is
empty or the predicate accepts `(text, label_i, i)`; the result is a sublist
of `0..n` (catalog order, no re-sorting), and with empty filter text it is
exactly `0..n` regardless of the predicate. -/
theorem c5_filter_membership (s : SelectPrompt) :
    List.Sublist s.filter_options (List.range s.options.length) ∧
    (∀ i, i ∈ s.filter_options ↔
      ∃ l, s.options.get? i = some l ∧
        (s.inputContent.isEmpty = true ∨ s.filter s.inputContent l i = true)) ∧
    (s.inputContent.isEmpty = true →
      s.filter_options = List.range s.options.length) := by
  refine ⟨?_, ?_, ?_⟩
  · rw [List.range_eq_range']
    exact filterOptionsFrom_sublist _ _ _ 0
  · intro i
    rw [SelectPrompt.filter_options, mem_filterOptionsFrom]
    constructor
    · rintro ⟨k, l, hget, hik, hor⟩
      obtain rfl : k = i := by omega
      exact ⟨l, hget, hor⟩
    · rintro ⟨l, hget, hor⟩
      exact ⟨i, l, hget, by omega, hor⟩
  · intro hc
    rw [SelectPrompt.filter_options, filterOptionsFrom_of_isEmpty _ hc,
      List.range_eq_range']

theorem c5_filter_membership_witness :
    String.isEmpty demoPrompt.inputContent = true ∧
    demoPrompt.filter_options = List.range demoPrompt.options.length :=
  ⟨rfl, (c5_filter_membership demoPrompt).2.2 rfl⟩

/-- C6: in every reachable state, resolution returns nothing iff the
filtered list is empty or the cursor is out of its bounds, and otherwise
returns the answer `(i, options[i])` at `filtered[cursor]`. In the embedding
`get_final_answer` is a pure function of the state (it takes `&self` in the
source), so repeated calls agree by construction. -/
theorem c6_resolution (s : SelectPrompt) (hr : Reachable s) :
    (s.get_final_answer = none ↔
      (s.filtered_options = [] ∨ s.filtered_options.length ≤ s.cursor_index)) ∧
    (s.cursor_index < s.filtered_options.length →
      ∃ i l, s.filtered_options.get? s.cursor_index = some i ∧
        s.options.get? i = some l ∧
        s.get_final_answer = some (OptionAnswer.new i l)) :=
  ⟨get_final_answer_eq_none_iff s (reachable_idxInv hr),
   fun h => get_final_answer_some s (reachable_idxInv hr) h⟩

theorem c6_resolution_witness :
    demoPrompt.get_final_answer = none ↔
      (demoPrompt.filtered_options = [] ∨
        demoPrompt.filtered_options.length ≤ demoPrompt.cursor_index) :=
  (c6_resolution demoPrompt (Reachable.init demoSelect demoPrompt demoPrompt_new)).1

/-- C7: construction fails with `InvalidConfiguration` exactly when the
catalog is empty or the starting cursor reaches or exceeds the catalog
length; on success the filtered list is the full range `0..n`, the cursor is
the starting cursor, the input is empty, and every other field is copied
from the configuration unchanged. -/
theorem c7_construction (so : Select) :
    (so.options.isEmpty = true ∨ so.options.length ≤ so.starting_cursor →
      ∃ msg, SelectPrompt.new so =
        Except.error (InquireError.InvalidConfiguration msg)) ∧
    (so.options.isEmpty = false → so.starting_cursor < so.options.length →
      ∃ s, SelectPrompt.new so = Except.ok s ∧
        s.filtered_options = List.range so.options.length ∧
        s.cursor_index = so.starting_cursor ∧
        s.inputContent = "" ∧
        s.message = so.message ∧ s.options = so.options ∧
        s.help_message = so.help_message ∧ s.vim_mode = so.vim_mode ∧
        s.page_size = so.page_size ∧ s.filter = so.filter ∧
        s.formatter = so.formatter) := by
  constructor
  · intro h
    simp only [SelectPrompt.new]
    by_cases h1 : so.options.isEmpty = true
    · rw [if_pos h1]
      exact ⟨_, rfl⟩
    · rw [if_neg h1]
      have h2 : so.options.length ≤ so.starting_cursor := by
        rcases h with h | h
        · exact absurd h h1
        · exact h
      rw [if_pos h2]
      exact ⟨_, rfl⟩
  · intro h1 h2
    simp only [SelectPrompt.new]
    rw [if_neg (by simp [h1]), if_neg (by omega)]
    exact ⟨_, rfl, rfl, rfl, rfl, rfl, rfl, rfl, rfl, rfl, rfl, rfl⟩

theorem c7_construction_witness :
    (∃ msg, SelectPrompt.new { demoSelect with options := [] } =
      Except.error (InquireError.InvalidConfiguration msg)) ∧
    (∃ s, SelectPrompt.new demoSelect = Except.ok s ∧ s.cursor_index = 0) := by
  constructor
  · exact (c7_construction { demoSelect with options := [] }).1 (Or.inl rfl)
  · obtain ⟨s, hok, -, hcur, -⟩ := (c7_construction demoSelect).2 rfl (by decide)
    exact ⟨s, hok, hcur.trans rfl⟩

/-- C8: on the Submit key, or an unmodified space character, a run submits
the resolved answer when resolution yields one, and otherwise continues from
the identical state — the key has no observable effect on cursor, filtered
list or filter text. -/
theorem c8_submit_key (hk : HandleKey) (s : SelectPrompt) (ks : List Key) :
    (s.get_final_answer = none →
      run_prompt hk s (Key.Submit :: ks) = run_prompt hk s ks ∧
      run_prompt hk s (Key.Char ' ' KeyModifiers.NONE :: ks) = run_prompt hk s ks) ∧
    (∀ a, s.get_final_answer = some a →
      run_prompt hk s (Key.Submit :: ks) = Outcome.submitted a (s.formatter a) ∧
      run_prompt hk s (Key.Char ' ' KeyModifiers.NONE :: ks) =
        Outcome.submitted a (s.formatter a)) := by
  constructor
  · intro h
    constructor <;> simp only [run_prompt, h]
  · intro a h
    constructor <;> simp only [run_prompt, h]

theorem c8_submit_key_witness :
    run_prompt hkDemo demoPrompt [Key.Submit] =
      Outcome.submitted (OptionAnswer.new 0 "Banana") "Banana" ∧
    run_prompt hkDemo emptyFilteredPrompt [Key.Submit] =
      run_prompt hkDemo emptyFilteredPrompt [] :=
  ⟨((c8_submit_key hkDemo demoPrompt []).2 (OptionAnswer.new 0 "Banana") rfl).1,
   ((c8_submit_key hkDemo emptyFilteredPrompt []).1 rfl).1⟩

/-- C9: in every reachable state every filtered index is a valid catalog
index; hence every answer produced satisfies `options.get? index = some
value`, and the catalog lookups of `render` cannot fail. -/
theorem c9_catalog_index_invariant (s : SelectPrompt) (hr : Reachable s) :
    (∀ i ∈ s.filtered_options, i < s.options.length) ∧
    (∀ a, s.get_final_answer = some a → s.options.get? a.index = some a.value) ∧
    (∃ rows, s.render_choices = some rows) := by
  have hidx := reachable_idxInv hr
  refine ⟨hidx, ?_, render_choices_some s hidx⟩
  intro a ha
  simp only [SelectPrompt.get_final_answer] at ha
  cases hq : s.filtered_options.get? s.cursor_index with
  | none =>
    rw [hq] at ha
    cases ha
  | some i =>
    rw [hq, Option.some_bind] at ha
    cases ho : s.options.get? i with
    | none =>
      rw [ho] at ha
      cases ha
    | some l =>
      rw [ho, Option.map_some'] at ha
      injection ha with ha
      subst ha
      exact ho

theorem c9_catalog_index_invariant_witness :
    ∃ rows, demoPrompt.render_choices = some rows :=
  (c9_catalog_index_invariant demoPrompt
    (Reachable.init demoSelect demoPrompt demoPrompt_new)).2.2

/-- C10: formatter noninterference. For every key sequence, a run from a
state and a run from the same state with a different formatter installed
(`with_formatter`) reach related outcomes: both cancel, both stay editing in
states equal up to the formatter, or both submit the same answer — only the
displayed text may differ. Construction commutes with `with_formatter` in
the same way. -/
theorem c10_formatter_noninterference (hk : HandleKey) (f : OptionAnswer → String)
    (s : SelectPrompt) (ks : List Key) :
    FormatterOutcomeRel f (run_prompt hk s ks) (run_prompt hk (s.with_formatter f) ks) ∧
    (∀ so : Select, SelectPrompt.new (so.with_formatter f) =
      Except.map (fun s0 => s0.with_formatter f) (SelectPrompt.new so)) := by
  refine ⟨run_prompt_with_formatter hk f ks s, ?_⟩
  intro so
  simp only [SelectPrompt.new, Select.with_formatter, SelectPrompt.with_formatter]
  split <;> (try split) <;> rfl
